import Mathlib

/-!
Verification development for the reflection-condition generator
(groups_gemmi.py).  The embedding is a direct translation of the two core
functions `is_reflection_absent` and `analyze_zone` into Lean.

Numeric model: a gemmi operation stores an integer rotation matrix `rot`
and an integer translation `tran`, both to be divided by the common
denominator `DEN` (gemmi.Op.DEN = 24).  The Python code compares the
resulting fractional values with `np.allclose` / `np.isclose` (absolute
tolerance around 1e-8, relative 1e-5).  Every quantity compared is a
multiple of 1/DEN, and a nonzero multiple of 1/24 is far outside those
tolerances for the index magnitudes the program samples, so the faithful
shallow embedding of the tolerance tests is exact rational equality,
expressed below over the integers after clearing the denominator.
-/

namespace Brutus

/-- Common fractional denominator of gemmi operations (gemmi.Op.DEN). -/
def DEN : Int := 24

/-- A symmetry operation as gemmi stores it: the nine integer entries of
`op.rot` (row i, column j) and the three integer entries of `op.tran`,
all implicitly divided by `DEN`. -/
structure Op where
  r11 : Int
  r12 : Int
  r13 : Int
  r21 : Int
  r22 : Int
  r23 : Int
  r31 : Int
  r32 : Int
  r33 : Int
  t1 : Int
  t2 : Int
  t3 : Int
deriving DecidableEq

/-- A Miller index triple (h, k, l). -/
abbrev Triple := Int × Int × Int

/-- First component of the row-vector product (h,k,l) · rot. -/
def rotApplyX (op : Op) (h k l : Int) : Int := h * op.r11 + k * op.r21 + l * op.r31

/-- Second component of the row-vector product (h,k,l) · rot. -/
def rotApplyY (op : Op) (h k l : Int) : Int := h * op.r12 + k * op.r22 + l * op.r32

/-- Third component of the row-vector product (h,k,l) · rot. -/
def rotApplyZ (op : Op) (h k l : Int) : Int := h * op.r13 + k * op.r23 + l * op.r33

/-- Condition 1 of the absence test, `np.allclose(h_vec @ rot_frac, h_vec)`:
the row vector (h,k,l) times rot/DEN equals (h,k,l), i.e. after clearing
denominators, (h,k,l)·rot = DEN·(h,k,l) componentwise. -/
def rotInvariant (op : Op) (h k l : Int) : Bool :=
  rotApplyX op h k l == DEN * h &&
    rotApplyY op h k l == DEN * k &&
    rotApplyZ op h k l == DEN * l

/-- Condition 2 of the absence test, `np.isclose(ht, np.round(ht))`:
ht = (h,k,l)·tran/DEN is an integer, i.e. DEN divides (h,k,l)·tran. -/
def phaseIntegral (op : Op) (h k l : Int) : Bool :=
  (h * op.t1 + k * op.t2 + l * op.t3) % DEN == 0

/-- is_reflection_absent(gemmi_ops, h, k, l): scan the operation list;
if an operation leaves the reflection invariant (condition 1) and its
translation phase is not an integer (condition 2 fails), return true
immediately; if the scan finishes, return false. -/
def is_reflection_absent : List Op → Int → Int → Int → Bool
  | [], _, _, _ => false
  | op :: ops, h, k, l =>
    if rotInvariant op h k l then
      if phaseIntegral op h k l then is_reflection_absent ops h k l else true
    else is_reflection_absent ops h k l

/-- Python range(-max_index // 2, max_index), where // is floor division:
the integers from (-m)/2 (Lean Int division is floor division for a
positive divisor) up to m - 1. -/
def idxRange (m : Int) : List Int :=
  (List.range (m - (-m) / 2).toNat).map (fun (i : Nat) => (-m) / 2 + (i : Int))

/-- The test_refs generation of analyze_zone: for each of the ten zone
strings, the comprehension over idxRange with the zone's inline exclusion;
any other string yields the empty list (the Python if/elif chain leaves
test_refs empty). -/
def sample (zone : String) (m : Int) : List Triple :=
  let r := idxRange m
  if zone == "hkl" then
    (r.flatMap fun h => r.flatMap fun k => r.map fun l => (h, k, l)).filter
      (fun t => !(t.1 == 0 && t.2.1 == 0 && t.2.2 == 0))
  else if zone == "h00" then (r.filter (fun h => !(h == 0))).map (fun h => (h, 0, 0))
  else if zone == "0k0" then (r.filter (fun k => !(k == 0))).map (fun k => (0, k, 0))
  else if zone == "00l" then (r.filter (fun l => !(l == 0))).map (fun l => (0, 0, l))
  else if zone == "hk0" then
    (r.flatMap fun h => r.map fun k => (h, k, (0 : Int))).filter
      (fun t => !(t.1 == 0 && t.2.1 == 0))
  else if zone == "h0l" then
    (r.flatMap fun h => r.map fun l => (h, (0 : Int), l)).filter
      (fun t => !(t.1 == 0 && t.2.2 == 0))
  else if zone == "0kl" then
    (r.flatMap fun k => r.map fun l => ((0 : Int), k, l)).filter
      (fun t => !(t.2.1 == 0 && t.2.2 == 0))
  else if zone == "hhl" then
    (r.flatMap fun h => r.map fun l => (h, h, l)).filter
      (fun t => !(t.1 == 0 && t.2.2 == 0))
  else if zone == "hkk" then
    (r.flatMap fun h => r.map fun k => (h, k, k)).filter
      (fun t => !(t.1 == 0 && t.2.1 == 0))
  else if zone == "hll" then
    (r.flatMap fun h => r.map fun l => (h, l, l)).filter
      (fun t => !(t.1 == 0 && t.2.2 == 0))
  else []

/-- conditions.add(c) on the Python set, modelled on a duplicate-free list. -/
def sAdd (s : List String) (c : String) : List String :=
  if c ∈ s then s else s ++ [c]

/-- conditions.discard(c) on the Python set. -/
def sDiscard (s : List String) (c : String) : List String :=
  s.filter (fun d => !(d == c))

/-- Code-point comparison of strings, the order Python sorted() uses. -/
def strLeAux : List Char → List Char → Bool
  | [], _ => true
  | _ :: _, [] => false
  | a :: as, b :: bs =>
    if a.toNat < b.toNat then true
    else if b.toNat < a.toNat then false
    else strLeAux as bs

/-- strLe a b: a comes no later than b in code-point order. -/
def strLe (a b : String) : Bool := strLeAux a.data b.data

/-- Insert a string into an already sorted list of strings. -/
def sInsert (c : String) : List String → List String
  | [] => [c]
  | d :: ds => if strLe c d then c :: d :: ds else d :: sInsert c ds

/-- sorted(list(conditions)): insertion sort in code-point order. -/
def sortConds : List String → List String
  | [] => []
  | c :: cs => sInsert c (sortConds cs)

/-- Rule predicate for the hkl zone: h+k, k+l and h+l all even. -/
def pAll2 : Triple → Bool := fun t =>
  (t.1 + t.2.1) % 2 == 0 && (t.2.1 + t.2.2) % 2 == 0 && (t.1 + t.2.2) % 2 == 0

/-- Rule predicate: h+k+l even. -/
def pSum2 : Triple → Bool := fun t => (t.1 + t.2.1 + t.2.2) % 2 == 0

/-- Rule predicate: k+l even. -/
def pKL2 : Triple → Bool := fun t => (t.2.1 + t.2.2) % 2 == 0

/-- Rule predicate: h+l even. -/
def pHL2 : Triple → Bool := fun t => (t.1 + t.2.2) % 2 == 0

/-- Rule predicate: h+k even. -/
def pHK2 : Triple → Bool := fun t => (t.1 + t.2.1) % 2 == 0

/-- Rule predicate: -h+k+l divisible by 3. -/
def pM3a : Triple → Bool := fun t => (-t.1 + t.2.1 + t.2.2) % 3 == 0

/-- Rule predicate: h-k+l divisible by 3. -/
def pM3b : Triple → Bool := fun t => (t.1 - t.2.1 + t.2.2) % 3 == 0

/-- The hkl branch of the condition deduction: an if/elif chain adding at
most one condition to the empty set. -/
def conds_hkl (present : List Triple) : List String :=
  if present.all pAll2 then ["h+k, k+l, h+l=2n"]
  else if present.all pSum2 then ["h+k+l=2n"]
  else if present.all pKL2 then ["k+l=2n"]
  else if present.all pHL2 then ["h+l=2n"]
  else if present.all pHK2 then ["h+k=2n"]
  else if present.all pM3a then ["-h+k+l=3n"]
  else if present.all pM3b then ["h-k+l=3n"]
  else []

/-- The h00 branch: h=4n first, else h=2n, over h_vals. -/
def conds_h00 (present : List Triple) : List String :=
  let hVals := present.map (fun r => r.1)
  if hVals.all (fun h => h % 4 == 0) then ["h=4n"]
  else if hVals.all (fun h => h % 2 == 0) then ["h=2n"]
  else []

/-- The 0k0 branch: k=4n first, else k=2n, over k_vals. -/
def conds_0k0 (present : List Triple) : List String :=
  let kVals := present.map (fun r => r.2.1)
  if kVals.all (fun k => k % 4 == 0) then ["k=4n"]
  else if kVals.all (fun k => k % 2 == 0) then ["k=2n"]
  else []

/-- The 00l branch: l=6n, else l=4n, else l=3n, else l=2n, over l_vals. -/
def conds_00l (present : List Triple) : List String :=
  let lVals := present.map (fun r => r.2.2)
  if lVals.all (fun l => l % 6 == 0) then ["l=6n"]
  else if lVals.all (fun l => l % 4 == 0) then ["l=4n"]
  else if lVals.all (fun l => l % 3 == 0) then ["l=3n"]
  else if lVals.all (fun l => l % 2 == 0) then ["l=2n"]
  else []

/-- The set add/discard sequence of the hk0 branch, as a function of the
four boolean tests the Python code computes (h2n, k2n, the mod-4 sum test
and the mod-2 sum test, the last two forming an if/elif pair). -/
def build_hk0 (h2n k2n s4 s2 : Bool) : List String :=
  let s : List String := []
  let s := if h2n then sAdd s "h=2n" else s
  let s := if k2n then sAdd s "k=2n" else s
  let s := if s4 then sAdd s "h+k=4n" else if s2 then sAdd s "h+k=2n" else s
  let s := if h2n && k2n then sDiscard s "h+k=2n" else s
  if s.contains "h+k=4n" then sDiscard s "h+k=2n" else s

/-- The hk0 branch of the condition deduction. -/
def conds_hk0 (present : List Triple) : List String :=
  let hVals := present.map (fun r => r.1)
  let kVals := present.map (fun r => r.2.1)
  build_hk0 (hVals.all (fun h => h % 2 == 0)) (kVals.all (fun k => k % 2 == 0))
    ((hVals.zip kVals).all (fun p => (p.1 + p.2) % 4 == 0))
    ((hVals.zip kVals).all (fun p => (p.1 + p.2) % 2 == 0))

/-- The set add/discard sequence of the h0l branch. -/
def build_h0l (h2n l2n s4 s2 : Bool) : List String :=
  let s : List String := []
  let s := if h2n then sAdd s "h=2n" else s
  let s := if l2n then sAdd s "l=2n" else s
  let s := if s4 then sAdd s "h+l=4n" else if s2 then sAdd s "h+l=2n" else s
  let s := if h2n && l2n then sDiscard s "h+l=2n" else s
  if s.contains "h+l=4n" then sDiscard s "h+l=2n" else s

/-- The h0l branch of the condition deduction. -/
def conds_h0l (present : List Triple) : List String :=
  let hVals := present.map (fun r => r.1)
  let lVals := present.map (fun r => r.2.2)
  build_h0l (hVals.all (fun h => h % 2 == 0)) (lVals.all (fun l => l % 2 == 0))
    ((hVals.zip lVals).all (fun p => (p.1 + p.2) % 4 == 0))
    ((hVals.zip lVals).all (fun p => (p.1 + p.2) % 2 == 0))

/-- The set add/discard sequence of the 0kl branch. -/
def build_0kl (k2n l2n s4 s2 : Bool) : List String :=
  let s : List String := []
  let s := if k2n then sAdd s "k=2n" else s
  let s := if l2n then sAdd s "l=2n" else s
  let s := if s4 then sAdd s "k+l=4n" else if s2 then sAdd s "k+l=2n" else s
  let s := if k2n && l2n then sDiscard s "k+l=2n" else s
  if s.contains "k+l=4n" then sDiscard s "k+l=2n" else s

/-- The 0kl branch of the condition deduction. -/
def conds_0kl (present : List Triple) : List String :=
  let kVals := present.map (fun r => r.2.1)
  let lVals := present.map (fun r => r.2.2)
  build_0kl (kVals.all (fun k => k % 2 == 0)) (lVals.all (fun l => l % 2 == 0))
    ((kVals.zip lVals).all (fun p => (p.1 + p.2) % 4 == 0))
    ((kVals.zip lVals).all (fun p => (p.1 + p.2) % 2 == 0))

/-- The set add/discard sequence of the hhl branch. -/
def build_hhl (w4 s2 l2 : Bool) : List String :=
  let s : List String := []
  let s := if w4 then sAdd s "2h+l=4n" else s
  let s := if s2 then sAdd s "h+l=2n" else s
  let s := if l2 then sAdd s "l=2n" else s
  if s.contains "2h+l=4n" then sDiscard s "l=2n" else s

/-- The hhl branch of the condition deduction. -/
def conds_hhl (present : List Triple) : List String :=
  let hVals := present.map (fun r => r.1)
  let lVals := present.map (fun r => r.2.2)
  build_hhl ((hVals.zip lVals).all (fun p => (2 * p.1 + p.2) % 4 == 0))
    ((hVals.zip lVals).all (fun p => (p.1 + p.2) % 2 == 0))
    (lVals.all (fun l => l % 2 == 0))

/-- The set add/discard sequence of the hkk branch. -/
def build_hkk (w4 s2 h2 : Bool) : List String :=
  let s : List String := []
  let s := if w4 then sAdd s "h+2k=4n" else s
  let s := if s2 then sAdd s "h+k=2n" else s
  let s := if h2 then sAdd s "h=2n" else s
  if s.contains "h+2k=4n" then sDiscard s "h=2n" else s

/-- The hkk branch of the condition deduction. -/
def conds_hkk (present : List Triple) : List String :=
  let hVals := present.map (fun r => r.1)
  let kVals := present.map (fun r => r.2.1)
  build_hkk ((hVals.zip kVals).all (fun p => (p.1 + 2 * p.2) % 4 == 0))
    ((hVals.zip kVals).all (fun p => (p.1 + p.2) % 2 == 0))
    (hVals.all (fun h => h % 2 == 0))

/-- The set add/discard sequence of the hll branch. -/
def build_hll (w4 s2 h2 : Bool) : List String :=
  let s : List String := []
  let s := if w4 then sAdd s "h+2l=4n" else s
  let s := if s2 then sAdd s "h+l=2n" else s
  let s := if h2 then sAdd s "h=2n" else s
  if s.contains "h+2l=4n" then sDiscard s "h=2n" else s

/-- The hll branch of the condition deduction. -/
def conds_hll (present : List Triple) : List String :=
  let hVals := present.map (fun r => r.1)
  let lVals := present.map (fun r => r.2.2)
  build_hll ((hVals.zip lVals).all (fun p => (p.1 + 2 * p.2) % 4 == 0))
    ((hVals.zip lVals).all (fun p => (p.1 + p.2) % 2 == 0))
    (hVals.all (fun h => h % 2 == 0))

/-- The zone dispatch of the condition-deduction section of analyze_zone;
a zone string outside the ten leaves the condition set empty. -/
def zoneConds (zone : String) (present : List Triple) : List String :=
  if zone == "hkl" then conds_hkl present
  else if zone == "h00" then conds_h00 present
  else if zone == "0k0" then conds_0k0 present
  else if zone == "00l" then conds_00l present
  else if zone == "hk0" then conds_hk0 present
  else if zone == "h0l" then conds_h0l present
  else if zone == "0kl" then conds_0kl present
  else if zone == "hhl" then conds_hhl present
  else if zone == "hkk" then conds_hkk present
  else if zone == "hll" then conds_hll present
  else []

/-- present_refs: the sampled reflections that are not systematically
absent. -/
def presentRefs (ops : List Op) (zone : String) (m : Int) : List Triple :=
  (sample zone m).filter (fun r => !is_reflection_absent ops r.1 r.2.1 r.2.2)

/-- analyze_zone(gemmi_ops, zone_type, max_index): generate test_refs,
return None on an empty sample; filter the present reflections, return
None when all or none are present; deduce the zone's conditions and
return them sorted, or None if the set stayed empty. -/
def analyze_zone (ops : List Op) (zone : String) (m : Int) : Option (List String) :=
  let test_refs := sample zone m
  if test_refs.isEmpty then none
  else
    let present := presentRefs ops zone m
    if present.length == test_refs.length || present.isEmpty then none
    else
      let conds := zoneConds zone present
      if conds.isEmpty then none else some (sortConds conds)

/-- The degenerate tests of analyze_zone (empty sample, everything
present, nothing present) as one boolean. -/
def degenerate (ops : List Op) (zone : String) (m : Int) : Bool :=
  (sample zone m).isEmpty ||
    (presentRefs ops zone m).length == (sample zone m).length ||
    (presentRefs ops zone m).isEmpty

/-- First-match-wins evaluation of an ordered rule table: the name of the
first rule whose predicate holds for every present reflection. -/
def firstMatch (present : List Triple) : List (String × (Triple → Bool)) → Option String
  | [] => none
  | r :: rs => if present.all r.2 then some r.1 else firstMatch present rs

/-- The hkl precedence table, in the order of the source's if/elif chain. -/
def hklRules : List (String × (Triple → Bool)) :=
  [("h+k, k+l, h+l=2n", pAll2), ("h+k+l=2n", pSum2), ("k+l=2n", pKL2),
   ("h+l=2n", pHL2), ("h+k=2n", pHK2), ("-h+k+l=3n", pM3a), ("h-k+l=3n", pM3b)]

/-- The h00 precedence table: modulus 4, then modulus 2, on h. -/
def h00Rules : List (String × (Triple → Bool)) :=
  [("h=4n", fun t => t.1 % 4 == 0), ("h=2n", fun t => t.1 % 2 == 0)]

/-- The 0k0 precedence table: modulus 4, then modulus 2, on k. -/
def k0Rules : List (String × (Triple → Bool)) :=
  [("k=4n", fun t => t.2.1 % 4 == 0), ("k=2n", fun t => t.2.1 % 2 == 0)]

/-- The 00l precedence table: moduli 6, 4, 3, 2, on l. -/
def l00Rules : List (String × (Triple → Bool)) :=
  [("l=6n", fun t => t.2.2 % 6 == 0), ("l=4n", fun t => t.2.2 % 4 == 0),
   ("l=3n", fun t => t.2.2 % 3 == 0), ("l=2n", fun t => t.2.2 % 2 == 0)]

/-- The identity operation: rot = DEN·I, tran = 0. -/
def idOp : Op := ⟨24, 0, 0, 0, 24, 0, 0, 0, 24, 0, 0, 0⟩

/-- Identity rotation with translation (1/2, 1/2, 0), i.e. tran = (12,12,0)
over DEN = 24. -/
def halfhkOp : Op := ⟨24, 0, 0, 0, 24, 0, 0, 0, 24, 12, 12, 0⟩

/-- Identity rotation with translation (1/2, 0, 0). -/
def aHalfOp : Op := ⟨24, 0, 0, 0, 24, 0, 0, 0, 24, 12, 0, 0⟩

/-- Identity rotation with translation (0, 1/2, 0). -/
def bHalfOp : Op := ⟨24, 0, 0, 0, 24, 0, 0, 0, 24, 0, 12, 0⟩

/-- Identity rotation with translation (1/24, 0, 0): its phase h/24 is
never an integer for the small nonzero h an axial sample contains. -/
def oddOp : Op := ⟨24, 0, 0, 0, 24, 0, 0, 0, 24, 1, 0, 0⟩

theorem absent_iff_exists (ops : List Op) (h k l : Int) :
    is_reflection_absent ops h k l = true ↔
      ∃ op ∈ ops, rotInvariant op h k l = true ∧ phaseIntegral op h k l = false := by
  induction ops with
  | nil => simp [is_reflection_absent]
  | cons op rest ih =>
    cases h1 : rotInvariant op h k l with
    | false => simp [is_reflection_absent, h1, ih]
    | true =>
      cases h2 : phaseIntegral op h k l with
      | false => simp [is_reflection_absent, h1, h2]
      | true => simp [is_reflection_absent, h1, h2, ih]

/-- C1: is_reflection_absent returns true exactly when some operation in
the list leaves (h,k,l) invariant under its fractional rotation and has a
non-integral translation phase; with no such operation it returns false. -/
theorem C1_absent_iff (ops : List Op) (h k l : Int) :
    is_reflection_absent ops h k l = true ↔
      ∃ op ∈ ops, rotInvariant op h k l = true ∧ phaseIntegral op h k l = false :=
  absent_iff_exists ops h k l

/-- C9: the absence test does not depend on the order of the operation
list, despite the short-circuit return. -/
theorem C9_perm_invariant (h k l : Int) (ops1 ops2 : List Op)
    (hp : List.Perm ops1 ops2) :
    is_reflection_absent ops1 h k l = is_reflection_absent ops2 h k l := by
  cases hb1 : is_reflection_absent ops1 h k l with
  | false =>
    cases hb2 : is_reflection_absent ops2 h k l with
    | false => rfl
    | true =>
      exfalso
      obtain ⟨op, hop, hc⟩ := (absent_iff_exists ops2 h k l).mp hb2
      have hcontra := (absent_iff_exists ops1 h k l).mpr ⟨op, hp.mem_iff.mpr hop, hc⟩
      simp [hb1] at hcontra
  | true =>
    cases hb2 : is_reflection_absent ops2 h k l with
    | false =>
      exfalso
      obtain ⟨op, hop, hc⟩ := (absent_iff_exists ops1 h k l).mp hb1
      have hcontra := (absent_iff_exists ops2 h k l).mpr ⟨op, hp.mem_iff.mp hop, hc⟩
      simp [hb2] at hcontra
    | true => rfl

/-- Witness for C9 at a concrete two-element operation list. -/
theorem C9_perm_invariant_witness :
    is_reflection_absent [idOp, halfhkOp] 1 0 0 =
      is_reflection_absent [halfhkOp, idOp] 1 0 0 :=
  C9_perm_invariant 1 0 0 [idOp, halfhkOp] [halfhkOp, idOp]
    (List.Perm.swap halfhkOp idOp [])

theorem rotInvariant_idOp (h k l : Int) : rotInvariant idOp h k l = true := by
  simp [rotInvariant, rotApplyX, rotApplyY, rotApplyZ, idOp, DEN]
  omega

theorem phaseIntegral_idOp (h k l : Int) : phaseIntegral idOp h k l = true := by
  simp [phaseIntegral, idOp, DEN]

theorem absent_idOp (h k l : Int) : is_reflection_absent [idOp] h k l = false := by
  simp [is_reflection_absent, rotInvariant_idOp, phaseIntegral_idOp]

theorem az_none_of_empty (ops : List Op) (zone : String) (m : Int)
    (he : sample zone m = []) : analyze_zone ops zone m = none := by
  unfold analyze_zone
  simp [he]

theorem az_none_of_all_present (ops : List Op) (zone : String) (m : Int)
    (hall : ∀ r ∈ sample zone m, is_reflection_absent ops r.1 r.2.1 r.2.2 = false) :
    analyze_zone ops zone m = none := by
  unfold analyze_zone
  by_cases he : (sample zone m).isEmpty
  · simp [he]
  · have hfe : presentRefs ops zone m = sample zone m := by
      unfold presentRefs
      apply List.filter_eq_self.mpr
      intro a ha
      simp [hall a ha]
    simp [he, hfe]

theorem az_none_of_none_present (ops : List Op) (zone : String) (m : Int)
    (hall : ∀ r ∈ sample zone m, is_reflection_absent ops r.1 r.2.1 r.2.2 = true) :
    analyze_zone ops zone m = none := by
  unfold analyze_zone
  by_cases he : (sample zone m).isEmpty
  · simp [he]
  · have hfe : presentRefs ops zone m = [] := by
      unfold presentRefs
      apply List.filter_eq_nil_iff.mpr
      intro a ha
      simp [hall a ha]
    simp [he, hfe]

/-- C3: with only the identity operation every zone yields no conditions,
for every sampling bound. -/
theorem C3_identity_null (zone : String) (m : Int) :
    analyze_zone [idOp] zone m = none :=
  az_none_of_all_present [idOp] zone m (fun r _ => absent_idOp r.1 r.2.1 r.2.2)

/-- C5: analyze_zone returns none (not an error) when the sample is
empty, when every candidate is present, and when no candidate is present. -/
theorem C5_degenerate_null (ops : List Op) (zone : String) (m : Int) :
    (sample zone m = [] → analyze_zone ops zone m = none) ∧
    ((∀ r ∈ sample zone m, is_reflection_absent ops r.1 r.2.1 r.2.2 = false) →
      analyze_zone ops zone m = none) ∧
    ((∀ r ∈ sample zone m, is_reflection_absent ops r.1 r.2.1 r.2.2 = true) →
      analyze_zone ops zone m = none) :=
  ⟨az_none_of_empty ops zone m, az_none_of_all_present ops zone m,
    az_none_of_none_present ops zone m⟩

/-- Witness for C5: an unknown zone string gives an empty sample; the
identity group makes everything present; the 1/24 translation makes every
sampled axial reflection absent. -/
theorem C5_degenerate_null_witness :
    analyze_zone [] "zzz" 5 = none ∧
    analyze_zone [idOp] "h00" 8 = none ∧
    analyze_zone [oddOp] "h00" 8 = none :=
  ⟨(C5_degenerate_null [] "zzz" 5).1 (by rfl),
   (C5_degenerate_null [idOp] "h00" 8).2.1 (by decide),
   (C5_degenerate_null [oddOp] "h00" 8).2.2 (by decide)⟩

/-- C10: the empty operation list makes every reflection present and
every zone analysis null. -/
theorem C10_empty_ops (h k l : Int) (zone : String) (m : Int) :
    is_reflection_absent [] h k l = false ∧ analyze_zone [] zone m = none :=
  ⟨rfl, az_none_of_all_present [] zone m (fun _ _ => rfl)⟩

set_option maxRecDepth 200000 in
/-- C2: the group {identity, (identity rotation, translation (1/2,1/2,0))}
on zone hk0 with max_index 8 yields exactly the condition h+k=2n, and the
returned list contains neither h=2n nor k=2n. -/
theorem C2_centering_example :
    analyze_zone [idOp, halfhkOp] "hk0" 8 = some ["h+k=2n"] ∧
    ((analyze_zone [idOp, halfhkOp] "hk0" 8).getD []).all
      (fun c => !(c == "h=2n") && !(c == "k=2n")) = true := by
  decide

theorem mem_idxRange (m x : Int) : x ∈ idxRange m ↔ (-m) / 2 ≤ x ∧ x < m := by
  unfold idxRange
  rw [List.mem_map]
  constructor
  · rintro ⟨i, hi, rfl⟩
    rw [List.mem_range] at hi
    omega
  · intro hx
    refine ⟨(x - (-m) / 2).toNat, ?_, ?_⟩
    · rw [List.mem_range]
      omega
    · omega

theorem sample_hkl_eq (m : Int) : sample "hkl" m =
    ((idxRange m).flatMap fun h => (idxRange m).flatMap fun k =>
      (idxRange m).map fun l => (h, k, l)).filter
        (fun t => !(t.1 == 0 && t.2.1 == 0 && t.2.2 == 0)) := rfl

theorem sample_h00_eq (m : Int) : sample "h00" m =
    ((idxRange m).filter (fun h => !(h == 0))).map (fun h => (h, 0, 0)) := rfl

theorem sample_0k0_eq (m : Int) : sample "0k0" m =
    ((idxRange m).filter (fun k => !(k == 0))).map (fun k => (0, k, 0)) := rfl

theorem sample_00l_eq (m : Int) : sample "00l" m =
    ((idxRange m).filter (fun l => !(l == 0))).map (fun l => (0, 0, l)) := rfl

theorem sample_hk0_eq (m : Int) : sample "hk0" m =
    ((idxRange m).flatMap fun h => (idxRange m).map fun k => (h, k, (0 : Int))).filter
      (fun t => !(t.1 == 0 && t.2.1 == 0)) := rfl

theorem sample_h0l_eq (m : Int) : sample "h0l" m =
    ((idxRange m).flatMap fun h => (idxRange m).map fun l => (h, (0 : Int), l)).filter
      (fun t => !(t.1 == 0 && t.2.2 == 0)) := rfl

theorem sample_0kl_eq (m : Int) : sample "0kl" m =
    ((idxRange m).flatMap fun k => (idxRange m).map fun l => ((0 : Int), k, l)).filter
      (fun t => !(t.2.1 == 0 && t.2.2 == 0)) := rfl

theorem sample_hhl_eq (m : Int) : sample "hhl" m =
    ((idxRange m).flatMap fun h => (idxRange m).map fun l => (h, h, l)).filter
      (fun t => !(t.1 == 0 && t.2.2 == 0)) := rfl

theorem sample_hkk_eq (m : Int) : sample "hkk" m =
    ((idxRange m).flatMap fun h => (idxRange m).map fun k => (h, k, k)).filter
      (fun t => !(t.1 == 0 && t.2.1 == 0)) := rfl

theorem sample_hll_eq (m : Int) : sample "hll" m =
    ((idxRange m).flatMap fun h => (idxRange m).map fun l => (h, l, l)).filter
      (fun t => !(t.1 == 0 && t.2.2 == 0)) := rfl

theorem mem_sample_hkl (m h k l : Int) :
    ((h, k, l) : Triple) ∈ sample "hkl" m ↔
      ((-m) / 2 ≤ h ∧ h < m ∧ (-m) / 2 ≤ k ∧ k < m ∧ (-m) / 2 ≤ l ∧ l < m ∧
        ¬(h = 0 ∧ k = 0 ∧ l = 0)) := by
  rw [sample_hkl_eq]
  simp [List.mem_filter, List.mem_flatMap, List.mem_map, mem_idxRange, Prod.mk.injEq]
  constructor
  · rintro ⟨⟨a, ha, b, hb, c, hc, rfl, rfl, rfl⟩, hi⟩
    exact ⟨ha.1, ha.2, hb.1, hb.2, hc.1, hc.2, by tauto⟩
  · rintro ⟨b1, b2, b3, b4, b5, b6, hi⟩
    exact ⟨⟨h, ⟨b1, b2⟩, k, ⟨b3, b4⟩, l, ⟨b5, b6⟩, rfl, rfl, rfl⟩, by tauto⟩

theorem mem_sample_h00 (m h k l : Int) :
    ((h, k, l) : Triple) ∈ sample "h00" m ↔
      ((-m) / 2 ≤ h ∧ h < m ∧ h ≠ 0 ∧ k = 0 ∧ l = 0) := by
  rw [sample_h00_eq]
  simp [List.mem_map, List.mem_filter, mem_idxRange, Prod.mk.injEq, -Prod.mk_zero_zero]
  constructor
  · rintro ⟨a, ⟨ha, hne⟩, rfl, rfl, rfl⟩
    exact ⟨ha.1, ha.2, hne, rfl, rfl⟩
  · rintro ⟨b1, b2, hne, rfl, rfl⟩
    exact ⟨h, ⟨⟨b1, b2⟩, hne⟩, rfl, rfl, rfl⟩

theorem mem_sample_0k0 (m h k l : Int) :
    ((h, k, l) : Triple) ∈ sample "0k0" m ↔
      ((-m) / 2 ≤ k ∧ k < m ∧ k ≠ 0 ∧ h = 0 ∧ l = 0) := by
  rw [sample_0k0_eq]
  simp [List.mem_map, List.mem_filter, mem_idxRange, Prod.mk.injEq]
  constructor
  · rintro ⟨a, ⟨ha, hne⟩, rfl, rfl, rfl⟩
    exact ⟨ha.1, ha.2, hne, rfl, rfl⟩
  · rintro ⟨b1, b2, hne, rfl, rfl⟩
    exact ⟨k, ⟨⟨b1, b2⟩, hne⟩, rfl, rfl, rfl⟩

theorem mem_sample_00l (m h k l : Int) :
    ((h, k, l) : Triple) ∈ sample "00l" m ↔
      ((-m) / 2 ≤ l ∧ l < m ∧ l ≠ 0 ∧ h = 0 ∧ k = 0) := by
  rw [sample_00l_eq]
  simp [List.mem_map, List.mem_filter, mem_idxRange, Prod.mk.injEq]
  constructor
  · rintro ⟨a, ⟨ha, hne⟩, rfl, rfl, rfl⟩
    exact ⟨ha.1, ha.2, hne, rfl, rfl⟩
  · rintro ⟨b1, b2, hne, rfl, rfl⟩
    exact ⟨l, ⟨⟨b1, b2⟩, hne⟩, rfl, rfl, rfl⟩

theorem mem_sample_hk0 (m h k l : Int) :
    ((h, k, l) : Triple) ∈ sample "hk0" m ↔
      ((-m) / 2 ≤ h ∧ h < m ∧ (-m) / 2 ≤ k ∧ k < m ∧ l = 0 ∧ ¬(h = 0 ∧ k = 0)) := by
  rw [sample_hk0_eq]
  simp [List.mem_filter, List.mem_flatMap, List.mem_map, mem_idxRange, Prod.mk.injEq]
  constructor
  · rintro ⟨⟨a, ha, b, hb, rfl, rfl, rfl⟩, hi⟩
    exact ⟨ha.1, ha.2, hb.1, hb.2, rfl, by tauto⟩
  · rintro ⟨b1, b2, b3, b4, rfl, hi⟩
    exact ⟨⟨h, ⟨b1, b2⟩, k, ⟨b3, b4⟩, rfl, rfl, rfl⟩, by tauto⟩

theorem mem_sample_h0l (m h k l : Int) :
    ((h, k, l) : Triple) ∈ sample "h0l" m ↔
      ((-m) / 2 ≤ h ∧ h < m ∧ (-m) / 2 ≤ l ∧ l < m ∧ k = 0 ∧ ¬(h = 0 ∧ l = 0)) := by
  rw [sample_h0l_eq]
  simp [List.mem_filter, List.mem_flatMap, List.mem_map, mem_idxRange, Prod.mk.injEq]
  constructor
  · rintro ⟨⟨a, ha, b, hb, rfl, rfl, rfl⟩, hi⟩
    exact ⟨ha.1, ha.2, hb.1, hb.2, rfl, by tauto⟩
  · rintro ⟨b1, b2, b3, b4, rfl, hi⟩
    exact ⟨⟨h, ⟨b1, b2⟩, l, ⟨b3, b4⟩, rfl, rfl, rfl⟩, by tauto⟩

theorem mem_sample_0kl (m h k l : Int) :
    ((h, k, l) : Triple) ∈ sample "0kl" m ↔
      ((-m) / 2 ≤ k ∧ k < m ∧ (-m) / 2 ≤ l ∧ l < m ∧ h = 0 ∧ ¬(k = 0 ∧ l = 0)) := by
  rw [sample_0kl_eq]
  simp [List.mem_filter, List.mem_flatMap, List.mem_map, mem_idxRange, Prod.mk.injEq]
  constructor
  · rintro ⟨⟨a, ha, b, hb, rfl, rfl, rfl⟩, hi⟩
    exact ⟨ha.1, ha.2, hb.1, hb.2, rfl, by tauto⟩
  · rintro ⟨b1, b2, b3, b4, rfl, hi⟩
    exact ⟨⟨k, ⟨b1, b2⟩, l, ⟨b3, b4⟩, rfl, rfl, rfl⟩, by tauto⟩

theorem mem_sample_hhl (m h k l : Int) :
    ((h, k, l) : Triple) ∈ sample "hhl" m ↔
      (k = h ∧ (-m) / 2 ≤ h ∧ h < m ∧ (-m) / 2 ≤ l ∧ l < m ∧ ¬(h = 0 ∧ l = 0)) := by
  rw [sample_hhl_eq]
  simp [List.mem_filter, List.mem_flatMap, List.mem_map, mem_idxRange, Prod.mk.injEq]
  constructor
  · rintro ⟨⟨a, ha, b, hb, rfl, rfl, rfl⟩, hi⟩
    exact ⟨rfl, ha.1, ha.2, hb.1, hb.2, by tauto⟩
  · rintro ⟨rfl, b1, b2, b3, b4, hi⟩
    exact ⟨⟨k, ⟨b1, b2⟩, l, ⟨b3, b4⟩, rfl, rfl, rfl⟩, by tauto⟩

theorem mem_sample_hkk (m h k l : Int) :
    ((h, k, l) : Triple) ∈ sample "hkk" m ↔
      (l = k ∧ (-m) / 2 ≤ h ∧ h < m ∧ (-m) / 2 ≤ k ∧ k < m ∧ ¬(h = 0 ∧ k = 0)) := by
  rw [sample_hkk_eq]
  simp [List.mem_filter, List.mem_flatMap, List.mem_map, mem_idxRange, Prod.mk.injEq]
  constructor
  · rintro ⟨⟨a, ha, b, hb, rfl, rfl, rfl⟩, hi⟩
    exact ⟨rfl, ha.1, ha.2, hb.1, hb.2, by tauto⟩
  · rintro ⟨rfl, b1, b2, b3, b4, hi⟩
    exact ⟨⟨h, ⟨b1, b2⟩, l, ⟨b3, b4⟩, rfl, rfl, rfl⟩, by tauto⟩

theorem mem_sample_hll (m h k l : Int) :
    ((h, k, l) : Triple) ∈ sample "hll" m ↔
      (k = l ∧ (-m) / 2 ≤ h ∧ h < m ∧ (-m) / 2 ≤ l ∧ l < m ∧ ¬(h = 0 ∧ l = 0)) := by
  rw [sample_hll_eq]
  simp [List.mem_filter, List.mem_flatMap, List.mem_map, mem_idxRange, Prod.mk.injEq]
  constructor
  · rintro ⟨⟨a, ha, b, hb, rfl, rfl, rfl⟩, hi⟩
    exact ⟨rfl, ha.1, ha.2, hb.1, hb.2, by tauto⟩
  · rintro ⟨rfl, b1, b2, b3, b4, hi⟩
    exact ⟨⟨h, ⟨b1, b2⟩, k, ⟨b3, b4⟩, rfl, rfl, rfl⟩, by tauto⟩

/-- C4 counterexample: with max_index 1 the h range of the sampler is
range(-1 // 2, 1) = range(-1, 1) (Python floor division), so the h00
candidate list contains (-1,0,0), whose free component lies below the
claimed lower bound -floor(1/2) = 0. -/
theorem C4_range_counterexample :
    ((-1 : Int), (0 : Int), (0 : Int)) ∈ sample "h00" 1 ∧
      ¬(-((1 : Int) / 2) ≤ -1) := by
  decide

/-- C4 (amended): for every max_index m the candidate set of each zone is
exactly the set of triples whose free components lie in the interval from
floor(-m/2) inclusive (not -floor(m/2): the two differ for odd m) to m
exclusive, with the tied or zero components fixed by the zone and the
degenerate all-free-zero point excluded. -/
theorem C4_sample_characterization (m h k l : Int) :
    (((h, k, l) : Triple) ∈ sample "hkl" m ↔
      ((-m) / 2 ≤ h ∧ h < m ∧ (-m) / 2 ≤ k ∧ k < m ∧ (-m) / 2 ≤ l ∧ l < m ∧
        ¬(h = 0 ∧ k = 0 ∧ l = 0))) ∧
    (((h, k, l) : Triple) ∈ sample "h00" m ↔
      ((-m) / 2 ≤ h ∧ h < m ∧ h ≠ 0 ∧ k = 0 ∧ l = 0)) ∧
    (((h, k, l) : Triple) ∈ sample "0k0" m ↔
      ((-m) / 2 ≤ k ∧ k < m ∧ k ≠ 0 ∧ h = 0 ∧ l = 0)) ∧
    (((h, k, l) : Triple) ∈ sample "00l" m ↔
      ((-m) / 2 ≤ l ∧ l < m ∧ l ≠ 0 ∧ h = 0 ∧ k = 0)) ∧
    (((h, k, l) : Triple) ∈ sample "hk0" m ↔
      ((-m) / 2 ≤ h ∧ h < m ∧ (-m) / 2 ≤ k ∧ k < m ∧ l = 0 ∧ ¬(h = 0 ∧ k = 0))) ∧
    (((h, k, l) : Triple) ∈ sample "h0l" m ↔
      ((-m) / 2 ≤ h ∧ h < m ∧ (-m) / 2 ≤ l ∧ l < m ∧ k = 0 ∧ ¬(h = 0 ∧ l = 0))) ∧
    (((h, k, l) : Triple) ∈ sample "0kl" m ↔
      ((-m) / 2 ≤ k ∧ k < m ∧ (-m) / 2 ≤ l ∧ l < m ∧ h = 0 ∧ ¬(k = 0 ∧ l = 0))) ∧
    (((h, k, l) : Triple) ∈ sample "hhl" m ↔
      (k = h ∧ (-m) / 2 ≤ h ∧ h < m ∧ (-m) / 2 ≤ l ∧ l < m ∧ ¬(h = 0 ∧ l = 0))) ∧
    (((h, k, l) : Triple) ∈ sample "hkk" m ↔
      (l = k ∧ (-m) / 2 ≤ h ∧ h < m ∧ (-m) / 2 ≤ k ∧ k < m ∧ ¬(h = 0 ∧ k = 0))) ∧
    (((h, k, l) : Triple) ∈ sample "hll" m ↔
      (k = l ∧ (-m) / 2 ≤ h ∧ h < m ∧ (-m) / 2 ≤ l ∧ l < m ∧ ¬(h = 0 ∧ l = 0))) :=
  ⟨mem_sample_hkl m h k l, mem_sample_h00 m h k l, mem_sample_0k0 m h k l,
   mem_sample_00l m h k l, mem_sample_hk0 m h k l, mem_sample_h0l m h k l,
   mem_sample_0kl m h k l, mem_sample_hhl m h k l, mem_sample_hkk m h k l,
   mem_sample_hll m h k l⟩

theorem all_map' {α β : Type} (l : List α) (f : α → β) (p : β → Bool) :
    (l.map f).all p = l.all (fun a => p (f a)) := by
  induction l with
  | nil => rfl
  | cons a as ih => simp [ih]

theorem conds_hkl_eq (p : List Triple) :
    conds_hkl p = match firstMatch p hklRules with
      | none => []
      | some c => [c] := by
  simp only [conds_hkl, hklRules, firstMatch]
  repeat' split
  all_goals simp_all

theorem conds_h00_eq (p : List Triple) :
    conds_h00 p = match firstMatch p h00Rules with
      | none => []
      | some c => [c] := by
  simp only [conds_h00, h00Rules, firstMatch, all_map']
  repeat' split
  all_goals simp_all

theorem conds_0k0_eq (p : List Triple) :
    conds_0k0 p = match firstMatch p k0Rules with
      | none => []
      | some c => [c] := by
  simp only [conds_0k0, k0Rules, firstMatch, all_map']
  repeat' split
  all_goals simp_all

theorem conds_00l_eq (p : List Triple) :
    conds_00l p = match firstMatch p l00Rules with
      | none => []
      | some c => [c] := by
  simp only [conds_00l, l00Rules, firstMatch, all_map']
  repeat' split
  all_goals simp_all

theorem az_eq_firstMatch (ops : List Op) (zone : String) (m : Int)
    (rules : List (String × (Triple → Bool)))
    (hzc : ∀ p, zoneConds zone p = match firstMatch p rules with
      | none => []
      | some c => [c]) :
    analyze_zone ops zone m =
      if degenerate ops zone m then none
      else (firstMatch (presentRefs ops zone m) rules).map (fun c => [c]) := by
  simp only [analyze_zone, degenerate]
  by_cases h1 : (sample zone m).isEmpty = true
  · simp [h1]
  · by_cases h2 : (presentRefs ops zone m).length = (sample zone m).length
    · simp [h1, h2]
    · by_cases h3 : presentRefs ops zone m = []
      · simp [h1, h2, h3]
      · simp [h1, h2, h3, hzc]
        cases hm : firstMatch (presentRefs ops zone m) rules with
        | none => simp [hm]
        | some c => simp [hm, sortConds, sInsert]

/-- C6: on the hkl zone analyze_zone returns none or exactly one
condition, the first entry of the fixed precedence table (triple-even,
h+k+l even, k+l even, h+l even, h+k even, -h+k+l mod 3, h-k+l mod 3)
whose predicate holds for every present reflection. -/
theorem C6_hkl_first_match (ops : List Op) (m : Int) :
    analyze_zone ops "hkl" m =
      if degenerate ops "hkl" m then none
      else (firstMatch (presentRefs ops "hkl" m) hklRules).map (fun c => [c]) :=
  az_eq_firstMatch ops "hkl" m hklRules (fun p => by
    rw [show zoneConds "hkl" p = conds_hkl p from rfl]
    exact conds_hkl_eq p)

/-- C8: on the axial zones analyze_zone returns at most one condition,
testing moduli in decreasing order with first match winning: 4 then 2 for
h00 and 0k0, and 6, 4, 3, 2 for 00l. -/
theorem C8_axial_first_match (ops : List Op) (m : Int) :
    (analyze_zone ops "h00" m =
      if degenerate ops "h00" m then none
      else (firstMatch (presentRefs ops "h00" m) h00Rules).map (fun c => [c])) ∧
    (analyze_zone ops "0k0" m =
      if degenerate ops "0k0" m then none
      else (firstMatch (presentRefs ops "0k0" m) k0Rules).map (fun c => [c])) ∧
    (analyze_zone ops "00l" m =
      if degenerate ops "00l" m then none
      else (firstMatch (presentRefs ops "00l" m) l00Rules).map (fun c => [c])) :=
  ⟨az_eq_firstMatch ops "h00" m h00Rules (fun p => by
      rw [show zoneConds "h00" p = conds_h00 p from rfl]
      exact conds_h00_eq p),
   az_eq_firstMatch ops "0k0" m k0Rules (fun p => by
      rw [show zoneConds "0k0" p = conds_0k0 p from rfl]
      exact conds_0k0_eq p),
   az_eq_firstMatch ops "00l" m l00Rules (fun p => by
      rw [show zoneConds "00l" p = conds_00l p from rfl]
      exact conds_00l_eq p)⟩

theorem mem_sInsert (a c : String) (l : List String) :
    a ∈ sInsert c l ↔ a = c ∨ a ∈ l := by
  induction l with
  | nil => simp [sInsert]
  | cons d ds ih =>
    simp only [sInsert]
    split
    · simp
    · simp [ih]
      tauto

theorem mem_sortConds (a : String) (l : List String) :
    a ∈ sortConds l ↔ a ∈ l := by
  induction l with
  | nil => simp [sortConds]
  | cons c cs ih => simp [sortConds, mem_sInsert, ih]

theorem build_hk0_prop (b1 b2 b3 b4 : Bool) :
    (¬("h+k=2n" ∈ build_hk0 b1 b2 b3 b4 ∧ "h=2n" ∈ build_hk0 b1 b2 b3 b4 ∧
        "k=2n" ∈ build_hk0 b1 b2 b3 b4)) ∧
    (¬("h+k=2n" ∈ build_hk0 b1 b2 b3 b4 ∧ "h+k=4n" ∈ build_hk0 b1 b2 b3 b4)) := by
  cases b1 <;> cases b2 <;> cases b3 <;> cases b4 <;> decide

theorem build_h0l_prop (b1 b2 b3 b4 : Bool) :
    (¬("h+l=2n" ∈ build_h0l b1 b2 b3 b4 ∧ "h=2n" ∈ build_h0l b1 b2 b3 b4 ∧
        "l=2n" ∈ build_h0l b1 b2 b3 b4)) ∧
    (¬("h+l=2n" ∈ build_h0l b1 b2 b3 b4 ∧ "h+l=4n" ∈ build_h0l b1 b2 b3 b4)) := by
  cases b1 <;> cases b2 <;> cases b3 <;> cases b4 <;> decide

theorem build_0kl_prop (b1 b2 b3 b4 : Bool) :
    (¬("k+l=2n" ∈ build_0kl b1 b2 b3 b4 ∧ "k=2n" ∈ build_0kl b1 b2 b3 b4 ∧
        "l=2n" ∈ build_0kl b1 b2 b3 b4)) ∧
    (¬("k+l=2n" ∈ build_0kl b1 b2 b3 b4 ∧ "k+l=4n" ∈ build_0kl b1 b2 b3 b4)) := by
  cases b1 <;> cases b2 <;> cases b3 <;> cases b4 <;> decide

theorem az_some_eq (ops : List Op) (zone : String) (m : Int) (L : List String)
    (hL : analyze_zone ops zone m = some L) :
    L = sortConds (zoneConds zone (presentRefs ops zone m)) := by
  simp only [analyze_zone] at hL
  split at hL
  · exact absurd hL (by simp)
  · split at hL
    · exact absurd hL (by simp)
    · split at hL
      · exact absurd hL (by simp)
      · exact (Option.some_inj.mp hL).symm

theorem hk0_no_redundant (ops : List Op) (m : Int) (L : List String)
    (hL : analyze_zone ops "hk0" m = some L) :
    (¬("h+k=2n" ∈ L ∧ "h=2n" ∈ L ∧ "k=2n" ∈ L)) ∧
    (¬("h+k=2n" ∈ L ∧ "h+k=4n" ∈ L)) := by
  have hs := az_some_eq ops "hk0" m L hL
  rw [show zoneConds "hk0" (presentRefs ops "hk0" m) =
    conds_hk0 (presentRefs ops "hk0" m) from rfl] at hs
  simp only [conds_hk0] at hs
  subst hs
  constructor
  · rintro ⟨ha, hb, hc⟩
    rw [mem_sortConds] at ha hb hc
    exact (build_hk0_prop _ _ _ _).1 ⟨ha, hb, hc⟩
  · rintro ⟨ha, hb⟩
    rw [mem_sortConds] at ha hb
    exact (build_hk0_prop _ _ _ _).2 ⟨ha, hb⟩

theorem h0l_no_redundant (ops : List Op) (m : Int) (L : List String)
    (hL : analyze_zone ops "h0l" m = some L) :
    (¬("h+l=2n" ∈ L ∧ "h=2n" ∈ L ∧ "l=2n" ∈ L)) ∧
    (¬("h+l=2n" ∈ L ∧ "h+l=4n" ∈ L)) := by
  have hs := az_some_eq ops "h0l" m L hL
  rw [show zoneConds "h0l" (presentRefs ops "h0l" m) =
    conds_h0l (presentRefs ops "h0l" m) from rfl] at hs
  simp only [conds_h0l] at hs
  subst hs
  constructor
  · rintro ⟨ha, hb, hc⟩
    rw [mem_sortConds] at ha hb hc
    exact (build_h0l_prop _ _ _ _).1 ⟨ha, hb, hc⟩
  · rintro ⟨ha, hb⟩
    rw [mem_sortConds] at ha hb
    exact (build_h0l_prop _ _ _ _).2 ⟨ha, hb⟩

theorem okl_no_redundant (ops : List Op) (m : Int) (L : List String)
    (hL : analyze_zone ops "0kl" m = some L) :
    (¬("k+l=2n" ∈ L ∧ "k=2n" ∈ L ∧ "l=2n" ∈ L)) ∧
    (¬("k+l=2n" ∈ L ∧ "k+l=4n" ∈ L)) := by
  have hs := az_some_eq ops "0kl" m L hL
  rw [show zoneConds "0kl" (presentRefs ops "0kl" m) =
    conds_0kl (presentRefs ops "0kl" m) from rfl] at hs
  simp only [conds_0kl] at hs
  subst hs
  constructor
  · rintro ⟨ha, hb, hc⟩
    rw [mem_sortConds] at ha hb hc
    exact (build_0kl_prop _ _ _ _).1 ⟨ha, hb, hc⟩
  · rintro ⟨ha, hb⟩
    rw [mem_sortConds] at ha hb
    exact (build_0kl_prop _ _ _ _).2 ⟨ha, hb⟩

set_option maxRecDepth 200000 in
/-- C7: on the plane zones the returned condition list never contains the
sum-mod-2 rule together with both single-index parities, and never the
sum-mod-2 rule together with the sum-mod-4 rule; both single-index
parities can be recorded together, as the two half-cell translations
(1/2,0,0) and (0,1/2,0) show on hk0. -/
theorem C7_plane_redundancy (ops : List Op) (m : Int) :
    (∀ L, analyze_zone ops "hk0" m = some L →
      (¬("h+k=2n" ∈ L ∧ "h=2n" ∈ L ∧ "k=2n" ∈ L)) ∧
        (¬("h+k=2n" ∈ L ∧ "h+k=4n" ∈ L))) ∧
    (∀ L, analyze_zone ops "h0l" m = some L →
      (¬("h+l=2n" ∈ L ∧ "h=2n" ∈ L ∧ "l=2n" ∈ L)) ∧
        (¬("h+l=2n" ∈ L ∧ "h+l=4n" ∈ L))) ∧
    (∀ L, analyze_zone ops "0kl" m = some L →
      (¬("k+l=2n" ∈ L ∧ "k=2n" ∈ L ∧ "l=2n" ∈ L)) ∧
        (¬("k+l=2n" ∈ L ∧ "k+l=4n" ∈ L))) ∧
    analyze_zone [idOp, aHalfOp, bHalfOp] "hk0" 8 = some ["h=2n", "k=2n"] :=
  ⟨fun L => hk0_no_redundant ops m L,
   fun L => h0l_no_redundant ops m L,
   fun L => okl_no_redundant ops m L,
   by decide⟩

set_option maxRecDepth 200000 in
/-- Witness for C7 at the concrete double-glide example on hk0. -/
theorem C7_plane_redundancy_witness :
    (¬("h+k=2n" ∈ (["h=2n", "k=2n"] : List String) ∧
        "h=2n" ∈ (["h=2n", "k=2n"] : List String) ∧
        "k=2n" ∈ (["h=2n", "k=2n"] : List String))) ∧
    (¬("h+k=2n" ∈ (["h=2n", "k=2n"] : List String) ∧
        "h+k=4n" ∈ (["h=2n", "k=2n"] : List String))) :=
  (C7_plane_redundancy [idOp, aHalfOp, bHalfOp] 8).1 ["h=2n", "k=2n"] (by decide)

end Brutus
